import Mathlib

/-!
Verification of the chat-turn core of the AI-LifeManager backend.

The definitions below are a shallow embedding of the Python sources:

* `src/backend/app/plugins/task_management.py` — the `TaskManagementPlugin`
  accumulator and its four tool functions (Python mutation is modelled by
  explicit state passing: each method takes the plugin state and returns the
  new state, paired with the returned confirmation string where the source
  returns one);
* `src/backend/app/api/routes/chat.py` — the `/api/chat` turn orchestration
  (task-summary context, history windowing, reply assembly, accumulator
  lifecycle), parameterised over the outcome of the opaque model invocation;
* `src/backend/app/api/routes/tasks.py` — the `update_task` write logic;
* Python's `json.dumps` with default options (`ensure_ascii=True`,
  separators `", "` / `": "`), as invoked by `chat.py`, rendered at the
  character level.
-/

namespace AILifeManager

/-- One entry of `tasks_to_create`: the dict
`{"title": title, "priority": priority}` built by
`TaskManagementPlugin.create_task` (task_management.py lines 46-49). -/
structure CreateEntry where
  title : String
  priority : String
deriving Repr, DecidableEq

/-- State of `TaskManagementPlugin` (task_management.py lines 24-29):
the four per-turn action lists set up by `__init__`. -/
structure TaskManagementPlugin where
  tasks_to_create : List CreateEntry
  tasks_to_delete : List String
  tasks_to_complete : List String
  tasks_to_uncomplete : List String
deriving Repr, DecidableEq

/-- `TaskManagementPlugin.__init__` (task_management.py lines 24-29):
all four lists start empty. -/
def newPlugin : TaskManagementPlugin :=
  { tasks_to_create := []
    tasks_to_delete := []
    tasks_to_complete := []
    tasks_to_uncomplete := [] }

/-- `TaskManagementPlugin.create_task` (task_management.py lines 35-51).
Appends `{"title": title, "priority": priority}` to `tasks_to_create` and
returns the confirmation string; the Python default `priority="medium"` is
kept as a default argument. -/
def TaskManagementPlugin.create_task (p : TaskManagementPlugin)
    (title : String) (priority : String := "medium") :
    String × TaskManagementPlugin :=
  let task : CreateEntry := { title := title, priority := priority }
  ("タスク「" ++ title ++ "」(優先度: " ++ priority ++ ")を作成しました。",
   { p with tasks_to_create := p.tasks_to_create ++ [task] })

/-- `TaskManagementPlugin.delete_task` (task_management.py lines 57-68). -/
def TaskManagementPlugin.delete_task (p : TaskManagementPlugin)
    (task_id : String) : String × TaskManagementPlugin :=
  ("タスクID: " ++ task_id ++ " を削除リストに追加しました。",
   { p with tasks_to_delete := p.tasks_to_delete ++ [task_id] })

/-- `TaskManagementPlugin.complete_task` (task_management.py lines 74-85). -/
def TaskManagementPlugin.complete_task (p : TaskManagementPlugin)
    (task_id : String) : String × TaskManagementPlugin :=
  ("タスクID: " ++ task_id ++ " を完了状態にしました。",
   { p with tasks_to_complete := p.tasks_to_complete ++ [task_id] })

/-- `TaskManagementPlugin.uncomplete_task` (task_management.py lines 91-102). -/
def TaskManagementPlugin.uncomplete_task (p : TaskManagementPlugin)
    (task_id : String) : String × TaskManagementPlugin :=
  ("タスクID: " ++ task_id ++ " を未完了状態に戻しました。",
   { p with tasks_to_uncomplete := p.tasks_to_uncomplete ++ [task_id] })

/-- The dict returned by `TaskManagementPlugin.get_actions`
(task_management.py lines 115-120): keys `create`, `delete`, `complete`,
`uncomplete`. -/
structure Actions where
  create : List CreateEntry
  delete : List String
  complete : List String
  uncomplete : List String
deriving Repr, DecidableEq

/-- `TaskManagementPlugin.get_actions` (task_management.py lines 104-120):
returns the four lists (each `.copy()` in Python; the aliasing aspect of the
copy is modelled separately by the reference-cell model further below). -/
def TaskManagementPlugin.get_actions (p : TaskManagementPlugin) : Actions :=
  { create := p.tasks_to_create
    delete := p.tasks_to_delete
    complete := p.tasks_to_complete
    uncomplete := p.tasks_to_uncomplete }

/-- `TaskManagementPlugin.clear_actions` (task_management.py lines 122-131):
clears all four lists. -/
def TaskManagementPlugin.clear_actions (p : TaskManagementPlugin) :
    TaskManagementPlugin :=
  { p with
    tasks_to_create := []
    tasks_to_delete := []
    tasks_to_complete := []
    tasks_to_uncomplete := [] }

/-- One tool call the model can issue during a turn, with its arguments
(the four `@kernel_function`s of task_management.py). -/
inductive ToolCall where
  | createTask (title : String) (priority : String)
  | deleteTask (task_id : String)
  | completeTask (task_id : String)
  | uncompleteTask (task_id : String)
deriving Repr, DecidableEq

/-- Dispatch one tool call against the plugin (the Semantic Kernel
auto-dispatch invokes the corresponding method; the returned confirmation
string goes back to the model and is dropped here). -/
def applyCall (p : TaskManagementPlugin) : ToolCall → TaskManagementPlugin
  | .createTask title priority => (p.create_task title priority).2
  | .deleteTask task_id => (p.delete_task task_id).2
  | .completeTask task_id => (p.complete_task task_id).2
  | .uncompleteTask task_id => (p.uncomplete_task task_id).2

/-- Run a sequence of tool calls, in order, against a plugin state. -/
def runCalls (p : TaskManagementPlugin) (cs : List ToolCall) :
    TaskManagementPlugin :=
  cs.foldl applyCall p

/-- The create-entry recorded by a call, if it is a `create_task` call. -/
def ToolCall.createArg : ToolCall → Option CreateEntry
  | .createTask title priority => some { title := title, priority := priority }
  | _ => none

/-- The id recorded by a call, if it is a `delete_task` call. -/
def ToolCall.deleteArg : ToolCall → Option String
  | .deleteTask task_id => some task_id
  | _ => none

/-- The id recorded by a call, if it is a `complete_task` call. -/
def ToolCall.completeArg : ToolCall → Option String
  | .completeTask task_id => some task_id
  | _ => none

/-- The id recorded by a call, if it is an `uncomplete_task` call. -/
def ToolCall.uncompleteArg : ToolCall → Option String
  | .uncompleteTask task_id => some task_id
  | _ => none

/-- Lower-case hexadecimal digit, as produced by Python's `"%04x"`
formatting inside `json.encoder.py_encode_basestring_ascii`. -/
def hexDig : Nat → Char
  | 0 => '0' | 1 => '1' | 2 => '2' | 3 => '3' | 4 => '4'
  | 5 => '5' | 6 => '6' | 7 => '7' | 8 => '8' | 9 => '9'
  | 10 => 'a' | 11 => 'b' | 12 => 'c' | 13 => 'd' | 14 => 'e'
  | _ => 'f'

/-- Four-digit lower-case hex rendering of `n < 0x10000` (`"\\u%04x"`). -/
def hex4 (n : Nat) : List Char :=
  [hexDig (n / 4096 % 16), hexDig (n / 256 % 16), hexDig (n / 16 % 16),
   hexDig (n % 16)]

/-- Escape of a single character by Python's
`json.encoder.py_encode_basestring_ascii` (the default `ensure_ascii=True`
encoder used by `json.dumps` in chat.py line 143): backslash, quote and the
five short control escapes first, printable ASCII verbatim, everything else
as `\\uXXXX` (with a surrogate pair for code points above `0xFFFF`). -/
def escChar (c : Char) : List Char :=
  if c = '\\' then ['\\', '\\']
  else if c = '"' then ['\\', '"']
  else if c = '\x08' then ['\\', 'b']
  else if c = '\x0c' then ['\\', 'f']
  else if c = '\n' then ['\\', 'n']
  else if c = '\r' then ['\\', 'r']
  else if c = '\t' then ['\\', 't']
  else if 0x20 ≤ c.toNat ∧ c.toNat ≤ 0x7e then [c]
  else if c.toNat < 0x10000 then '\\' :: 'u' :: hex4 c.toNat
  else
    let m := c.toNat - 0x10000
    ('\\' :: 'u' :: hex4 (0xd800 + m / 0x400))
      ++ ('\\' :: 'u' :: hex4 (0xdc00 + m % 0x400))

/-- JSON rendering of a Python string: quote, escaped characters, quote. -/
def renderStr (s : String) : List Char :=
  '"' :: (s.data.map escChar).flatten ++ ['"']

/-- The `", "` item separator of `json.dumps` with default separators:
`sepRender [x1, ..., xn] = x1 ++ ", " ++ ... ++ ", " ++ xn`. -/
def sepRender : List (List Char) → List Char
  | [] => []
  | [x] => x
  | x :: y :: xs => x ++ ',' :: ' ' :: sepRender (y :: xs)

/-- JSON rendering of a list of strings (`["a", "b"]`, `[]` when empty). -/
def renderStrList (l : List String) : List Char :=
  '[' :: sepRender (l.map renderStr) ++ [']']

/-- JSON rendering of one create entry:
`\x7b"title": ..., "priority": ...\x7d` (keys in dict insertion order,
task_management.py lines 46-49). -/
def renderEntry (e : CreateEntry) : List Char :=
  "\x7b\"title\": ".data ++ renderStr e.title
    ++ ", \"priority\": ".data ++ renderStr e.priority ++ ['\x7d']

/-- JSON rendering of the `create` list. -/
def renderEntryList (l : List CreateEntry) : List Char :=
  '[' :: sepRender (l.map renderEntry) ++ [']']

/-- Character-level output of `json.dumps(actions_json)` in chat.py
lines 135-143: the four drained lists under the single key
`__task_actions__`, keys in insertion order, default separators. -/
def dumpsTaskActions (a : Actions) : List Char :=
  "\x7b\"__task_actions__\": \x7b\"create\": ".data
    ++ renderEntryList a.create
    ++ ", \"delete\": ".data ++ renderStrList a.delete
    ++ ", \"complete\": ".data ++ renderStrList a.complete
    ++ ", \"uncomplete\": ".data ++ renderStrList a.uncomplete
    ++ "\x7d\x7d".data

/-- Outcome of the opaque model invocation
(`chat_service.get_chat_message_contents`, chat.py line 110) as observed by
the handler: the tool calls auto-dispatched against the plugin during the
invocation, and either the extracted reply text (chat.py line 117) or the
exception message when the `try` body raises (model invocation or any later
step before `clear_actions`). -/
inductive ModelOutcome where
  | success (calls : List ToolCall) (response_text : String)
  | failure (calls : List ToolCall) (errMsg : String)
deriving Repr, DecidableEq

/-- Accumulator-and-reply lifecycle of one `/api/chat` turn
(chat.py lines 46-158): a fresh plugin is constructed (line 51), the model
invocation dispatches the tool calls against it, then on success the
actions are drained (line 122), appended to the reply when non-empty
(lines 127-143) and the plugin is cleared (line 146); when the `try` body
raises, the handler re-raises `HTTPException` (line 158) without reaching
`clear_actions`. Returns the HTTP-level result and the final plugin
state. -/
def chatTurn (outcome : ModelOutcome) : Except String String × TaskManagementPlugin :=
  let task_plugin := newPlugin
  match outcome with
  | .failure calls errMsg =>
      let p := runCalls task_plugin calls
      (Except.error ("AI処理エラー: " ++ errMsg), p)
  | .success calls response_text =>
      let p := runCalls task_plugin calls
      let actions := p.get_actions
      let has_actions :=
        !actions.create.isEmpty || !actions.delete.isEmpty
          || !actions.complete.isEmpty || !actions.uncomplete.isEmpty
      let response_text2 :=
        if has_actions then
          response_text ++ "\n\n" ++ String.mk (dumpsTaskActions actions)
        else response_text
      (Except.ok response_text2, p.clear_actions)

/-- The `Task` Pydantic schema (schemas.py lines 177-259): `TaskBase` plus
the response-only fields. Python `float` hour fields are carried opaquely as
rationals; the modelled code only copies them, never computes with them. -/
structure Task where
  projectId : String
  milestoneId : Option String
  parentTaskId : Option String
  title : String
  description : Option String
  status : String
  priority : String
  dueDate : Option String
  startDate : Option String
  estimatedHours : Option ℚ
  actualHours : Option ℚ
  dependencies : List String
  blockedBy : List String
  tags : List String
  isToday : Bool
  id : String
  createdAt : String
  updatedAt : String
  completedAt : Option String
deriving Repr, DecidableEq

/-- `todo_tasks` (chat.py line 63): the supplied tasks whose status is
`"todo"`. -/
def todo_tasks (tasks : List Task) : List Task :=
  tasks.filter (fun t => t.status == "todo")

/-- `done_tasks` (chat.py line 64): the supplied tasks whose status is
`"done"`. -/
def done_tasks (tasks : List Task) : List Task :=
  tasks.filter (fun t => t.status == "done")

/-- One line of the task listing (chat.py line 70). -/
def task_list_line (t : Task) : String :=
  "- ID: " ++ t.id ++ ", タイトル: " ++ t.title ++ ", 優先度: " ++ t.priority

/-- `task_list` (chat.py lines 67-72): the capped listing of the first 10
todo tasks, one line each, newline-separated (empty when there are no todo
tasks, matching the `""` initialisation). -/
def task_list (tasks : List Task) : String :=
  String.intercalate "\n" (((todo_tasks tasks).take 10).map task_list_line)

/-- The `todo_count` argument passed to `get_task_context_prompt`
(chat.py line 75): `len(todo_tasks)` over the full supplied list. -/
def todo_count (tasks : List Task) : Nat :=
  (todo_tasks tasks).length

/-- The `done_count` argument passed to `get_task_context_prompt`
(chat.py line 76): `len(done_tasks)` over the full supplied list. -/
def done_count (tasks : List Task) : Nat :=
  (done_tasks tasks).length

/-- The `ChatMessage` schema (schemas.py lines 266-275): a role string
(documented as `'user' or 'assistant'`) and the content. -/
structure ChatMessage where
  role : String
  content : String
deriving Repr, DecidableEq

/-- One entry of the Semantic Kernel `ChatHistory` as far as these claims
observe it: which add-method was called and with what content. -/
inductive HistEntry where
  | user (content : String)
  | assistant (content : String)
deriving Repr, DecidableEq

/-- Python's `l[-n:]` slice for a non-negative count `n`, as used in
`req.history[-settings.chat_history_limit:]` (chat.py line 85): the last `n`
elements, except that `l[-0:]` is the whole list. -/
def pyLastSlice (n : Nat) (l : List α) : List α :=
  if n = 0 then l else l.drop (l.length - n)

/-- The conversation entries added after the system message
(chat.py lines 84-92): iterate over the last `chat_history_limit` history
messages, adding user messages and assistant messages and silently skipping
any other role, then add the new user message. -/
def appendHistoryAndMessage (history : List ChatMessage) (chat_history_limit : Nat)
    (message : String) : List HistEntry :=
  (pyLastSlice chat_history_limit history).foldl
    (fun acc msg =>
      if msg.role == "user" then acc ++ [HistEntry.user msg.content]
      else if msg.role == "assistant" then acc ++ [HistEntry.assistant msg.content]
      else acc)
    []
    ++ [HistEntry.user message]

/-- The `TaskUpdate` schema (schemas.py lines 226-241): every field
optional; absent fields arrive as `None`. -/
structure TaskUpdate where
  title : Option String
  description : Option String
  status : Option String
  priority : Option String
  dueDate : Option String
  estimatedHours : Option ℚ
  dependencies : Option (List String)
  tags : Option (List String)
  isToday : Option Bool
deriving Repr, DecidableEq

/-- One row of the `tasks` table (`TaskModel`, database.py lines 92-140) as
manipulated by `update_task`. The `dependencies`, `blocked_by` and `tags`
columns store JSON-encoded text (written via `json.dumps`). -/
structure TaskRow where
  id : String
  project_id : String
  milestone_id : Option String
  parent_task_id : Option String
  title : String
  description : Option String
  status : String
  priority : String
  due_date : Option String
  start_date : Option String
  estimated_hours : Option ℚ
  actual_hours : Option ℚ
  dependencies : String
  blocked_by : String
  tags : String
  is_today : Bool
  created_at : String
  updated_at : String
  completed_at : Option String
deriving Repr, DecidableEq

/-- Python truthiness of an optional string column (`task.completed_at` in
`if ... and not task.completed_at`, tasks.py lines 139-142): `None` and the
empty string are falsy. -/
def pyTruthyOptStr : Option String → Bool
  | none => false
  | some s => s ≠ ""

/-- The `completed_at` value after the status branch of `update_task`
(tasks.py lines 138-143): on `done`, stamp the current time unless already
(truthily) set; on any other status, clear it when it is (truthily) set. -/
def newCompletedAt (s : String) (completed_at : Option String) (now : String) :
    Option String :=
  if s = "done" then
    if pyTruthyOptStr completed_at then completed_at else some now
  else
    if pyTruthyOptStr completed_at then none else completed_at

/-- The status branch of `update_task` (tasks.py lines 136-143): store the
new status and adjust `completed_at` as `newCompletedAt` describes. -/
def applyStatusUpdate (task : TaskRow) (status : Option String) (now : String) :
    TaskRow :=
  match status with
  | none => task
  | some s =>
    { task with status := s
                completed_at := newCompletedAt s task.completed_at now }

/-- `update_task` on a found row (tasks.py lines 131-157): each supplied
(non-`None`) field is copied onto the row in source order, `dependencies`
and `tags` through `json.dumps`, and `updated_at` is always stamped with
the current time. -/
def applyTaskUpdate (task : TaskRow) (updates : TaskUpdate) (now : String) :
    TaskRow :=
  let t1 := match updates.title with
    | some v => { task with title := v }
    | none => task
  let t2 := match updates.description with
    | some v => { t1 with description := some v }
    | none => t1
  let t3 := applyStatusUpdate t2 updates.status now
  let t4 := match updates.priority with
    | some v => { t3 with priority := v }
    | none => t3
  let t5 := match updates.dueDate with
    | some v => { t4 with due_date := some v }
    | none => t4
  let t6 := match updates.estimatedHours with
    | some v => { t5 with estimated_hours := some v }
    | none => t5
  let t7 := match updates.dependencies with
    | some v => { t6 with dependencies := String.mk (renderStrList v) }
    | none => t6
  let t8 := match updates.tags with
    | some v => { t7 with tags := String.mk (renderStrList v) }
    | none => t7
  let t9 := match updates.isToday with
    | some v => { t8 with is_today := v }
    | none => t8
  { t9 with updated_at := now }

/-- One item stored in a Python list cell of the plugin: a create dict
(left) or a task-id string (right). -/
def ActionItem := CreateEntry ⊕ String
deriving instance Repr, DecidableEq for ActionItem

/-- A heap of Python list objects, modelling list identity: a cell index is
an object reference, distinct cells are distinct mutable lists. -/
structure ListHeap where
  cells : List (List ActionItem)
deriving Repr, DecidableEq

/-- Dereference a list object (unallocated references read as `[]`). -/
def ListHeap.read (h : ListHeap) (r : Nat) : List ActionItem :=
  h.cells.getD r []

/-- In-place mutation of the list object `r` (e.g. `append`, `clear`, or
any mutation performed by a consumer holding the reference). -/
def ListHeap.write (h : ListHeap) (r : Nat) (v : List ActionItem) : ListHeap :=
  { cells := h.cells.set r v }

/-- Allocate a new list object, returning the extended heap and the fresh
reference. -/
def ListHeap.alloc (h : ListHeap) (v : List ActionItem) : ListHeap × Nat :=
  ({ cells := h.cells ++ [v] }, h.cells.length)

/-- The plugin instance under the reference-cell model: `__init__` stored
four list objects; the instance holds their references. -/
structure PluginRefs where
  create_ref : Nat
  delete_ref : Nat
  complete_ref : Nat
  uncomplete_ref : Nat
deriving Repr, DecidableEq

/-- The references held by a `PluginRefs` instance. -/
def PluginRefs.refs (p : PluginRefs) : List Nat :=
  [p.create_ref, p.delete_ref, p.complete_ref, p.uncomplete_ref]

/-- A plugin instance is valid on a heap when its four references are
allocated. -/
def PluginRefs.validOn (p : PluginRefs) (h : ListHeap) : Prop :=
  ∀ r ∈ p.refs, r < h.cells.length

instance (p : PluginRefs) (h : ListHeap) : Decidable (p.validOn h) := by
  unfold PluginRefs.validOn
  infer_instance

/-- `TaskManagementPlugin.__init__` under the reference-cell model:
allocate four fresh empty lists. -/
def newPluginRefs (h : ListHeap) : ListHeap × PluginRefs :=
  let (h1, r1) := h.alloc []
  let (h2, r2) := h1.alloc []
  let (h3, r3) := h2.alloc []
  let (h4, r4) := h3.alloc []
  (h4, { create_ref := r1, delete_ref := r2, complete_ref := r3,
         uncomplete_ref := r4 })

/-- `get_actions` under the reference-cell model (task_management.py
lines 115-120): each returned list is `self.<list>.copy()` — a freshly
allocated list object holding the same contents. The returned dict is
modelled as the four references to the copies. -/
def getActionsRefs (h : ListHeap) (p : PluginRefs) : ListHeap × PluginRefs :=
  let (h1, r1) := h.alloc (h.read p.create_ref)
  let (h2, r2) := h1.alloc (h1.read p.delete_ref)
  let (h3, r3) := h2.alloc (h2.read p.complete_ref)
  let (h4, r4) := h3.alloc (h3.read p.uncomplete_ref)
  (h4, { create_ref := r1, delete_ref := r2, complete_ref := r3,
         uncomplete_ref := r4 })

/-- A sample heap (used only to instantiate theorems on concrete inputs):
a fresh plugin's four cells after one create entry was appended. -/
def c8DemoHeap : ListHeap :=
  { cells := [[Sum.inl { title := "t", priority := "medium" }], [], [], []] }

/-- The plugin instance owning the four cells of `c8DemoHeap`. -/
def c8DemoRefs : PluginRefs :=
  { create_ref := 0, delete_ref := 1, complete_ref := 2, uncomplete_ref := 3 }

/-- Match a literal character sequence, returning the rest of the input. -/
def expectL : List Char → List Char → Option (List Char)
  | [], input => some input
  | _ :: _, [] => none
  | l :: ls, c :: cs => if c = l then expectL ls cs else none

/-- Hexadecimal digit value of a character (as accepted by `json.loads`
in `\uXXXX` escapes). -/
def fromHexDig (c : Char) : Option Nat :=
  if '0' ≤ c ∧ c ≤ '9' then some (c.toNat - 48)
  else if 'a' ≤ c ∧ c ≤ 'f' then some (c.toNat - 87)
  else if 'A' ≤ c ∧ c ≤ 'F' then some (c.toNat - 55)
  else none

/-- Value of four hex digits, as read by `json.loads` for `\uXXXX`. -/
def hexVal4 (a b c d : Char) : Option Nat :=
  match fromHexDig a, fromHexDig b, fromHexDig c, fromHexDig d with
  | some x, some y, some z, some w => some (x * 4096 + y * 256 + z * 16 + w)
  | _, _, _, _ => none

/-- Consume one lexical element of a JSON string body, as `json.loads`
does in strict mode: the closing quote (signalled by `none`), a literal
character (raw control characters rejected), a short backslash escape, or a
`\uXXXX` escape with surrogate-pair joining (lone surrogates, which Lean
strings cannot represent and the encoder never emits, are rejected).
Returns the produced character and the remaining input. -/
def scanTok (input : List Char) : Option (Option Char × List Char) :=
  match input with
  | [] => none
  | c :: rest =>
    if c = '"' then some (none, rest)
    else if c = '\\' then
      match rest with
      | [] => none
      | e :: rest2 =>
        if e = 'u' then
          match rest2 with
          | a :: b :: c1 :: d :: rest3 =>
            (match hexVal4 a b c1 d with
            | none => none
            | some n =>
              if n < 0xd800 ∨ 0xe000 ≤ n then some (some (Char.ofNat n), rest3)
              else if n < 0xdc00 then
                match rest3 with
                | e1 :: e2 :: a2 :: b2 :: c2 :: d2 :: rest4 =>
                  if e1 = '\\' ∧ e2 = 'u' then
                    (match hexVal4 a2 b2 c2 d2 with
                    | none => none
                    | some m =>
                      if 0xdc00 ≤ m ∧ m < 0xe000 then
                        some (some (Char.ofNat
                          (0x10000 + (n - 0xd800) * 0x400 + (m - 0xdc00))), rest4)
                      else none)
                  else none
                | _ => none
              else none)
          | _ => none
        else if e = '"' then some (some '"', rest2)
        else if e = '\\' then some (some '\\', rest2)
        else if e = '/' then some (some '/', rest2)
        else if e = 'b' then some (some '\x08', rest2)
        else if e = 'f' then some (some '\x0c', rest2)
        else if e = 'n' then some (some '\n', rest2)
        else if e = 'r' then some (some '\r', rest2)
        else if e = 't' then some (some '\t', rest2)
        else none
    else if c.toNat < 0x20 then none
    else some (some c, rest)

/-- Scan the body of a JSON string (after the opening quote) by repeatedly
consuming one element; the fuel bounds the number of produced characters
(one unit per element, so any fuel of at least the input length behaves
like the unbounded scanner). Returns the decoded characters and the input
after the closing quote. -/
def scanStrF : Nat → List Char → Option (List Char × List Char)
  | 0, _ => none
  | fuel + 1, input =>
    match scanTok input with
    | none => none
    | some (none, rest) => some ([], rest)
    | some (some ch, rest) =>
      (scanStrF fuel rest).map (fun p => (ch :: p.1, p.2))

/-- Parse a JSON string literal: opening quote, body, closing quote. -/
def parseStr (input : List Char) : Option (String × List Char) :=
  match input with
  | '"' :: rest => (scanStrF rest.length rest).map (fun p => (String.mk p.1, p.2))
  | _ => none

/-- Parse the items of a non-empty JSON array of strings, after the opening
bracket, in the exact default rendering (`", "` separators); the fuel bounds
the number of items. -/
def parseStrItems (fuel : Nat) (input : List Char) :
    Option (List String × List Char) :=
  match fuel with
  | 0 => none
  | fuel + 1 =>
    match parseStr input with
    | none => none
    | some (s, rest) =>
      match rest with
      | ']' :: rest2 => some ([s], rest2)
      | ',' :: ' ' :: rest2 =>
        (parseStrItems fuel rest2).map (fun p => (s :: p.1, p.2))
      | _ => none

/-- Parse a JSON array of strings. -/
def parseStrList (input : List Char) : Option (List String × List Char) :=
  match input with
  | '[' :: ']' :: rest => some ([], rest)
  | '[' :: rest => parseStrItems rest.length rest
  | _ => none

/-- Parse one create entry `\x7b"title": ..., "priority": ...\x7d`. -/
def parseEntry (input : List Char) : Option (CreateEntry × List Char) :=
  match expectL "\x7b\"title\": ".data input with
  | none => none
  | some r1 =>
    match parseStr r1 with
    | none => none
    | some (title, r2) =>
      match expectL ", \"priority\": ".data r2 with
      | none => none
      | some r3 =>
        match parseStr r3 with
        | none => none
        | some (priority, r4) =>
          match r4 with
          | '\x7d' :: r5 => some ({ title := title, priority := priority }, r5)
          | _ => none

/-- Parse the items of a non-empty JSON array of create entries. -/
def parseEntryItems (fuel : Nat) (input : List Char) :
    Option (List CreateEntry × List Char) :=
  match fuel with
  | 0 => none
  | fuel + 1 =>
    match parseEntry input with
    | none => none
    | some (e, rest) =>
      match rest with
      | ']' :: rest2 => some ([e], rest2)
      | ',' :: ' ' :: rest2 =>
        (parseEntryItems fuel rest2).map (fun p => (e :: p.1, p.2))
      | _ => none

/-- Parse a JSON array of create entries. -/
def parseEntryList (input : List Char) : Option (List CreateEntry × List Char) :=
  match input with
  | '[' :: ']' :: rest => some ([], rest)
  | '[' :: rest => parseEntryItems rest.length rest
  | _ => none

/-- Parse the trailing `__task_actions__` JSON block back into the four
action lists (the consumer-side reading of the payload appended by
chat.py line 143). -/
def parseTaskActions (input : List Char) : Option Actions :=
  match expectL "\x7b\"__task_actions__\": \x7b\"create\": ".data input with
  | none => none
  | some r1 =>
    match parseEntryList r1 with
    | none => none
    | some (cr, r2) =>
      match expectL ", \"delete\": ".data r2 with
      | none => none
      | some r3 =>
        match parseStrList r3 with
        | none => none
        | some (dl, r4) =>
          match expectL ", \"complete\": ".data r4 with
          | none => none
          | some r5 =>
            match parseStrList r5 with
            | none => none
            | some (cp, r6) =>
              match expectL ", \"uncomplete\": ".data r6 with
              | none => none
              | some r7 =>
                match parseStrList r7 with
                | none => none
                | some (uc, r8) =>
                  match r8 with
                  | ['\x7d', '\x7d'] =>
                    some { create := cr, delete := dl, complete := cp,
                           uncomplete := uc }
                  | _ => none

/-- The chat-history entry produced for a user/assistant message
(chat.py lines 86-89). -/
def msgEntry (m : ChatMessage) : HistEntry :=
  if m.role == "user" then HistEntry.user m.content
  else HistEntry.assistant m.content

/-- A sample history (used only to instantiate theorems on concrete
inputs). -/
def c6DemoHistory : List ChatMessage :=
  [{ role := "user", content := "m1" }, { role := "assistant", content := "m2" },
   { role := "user", content := "m3" }, { role := "assistant", content := "m4" },
   { role := "user", content := "m5" }, { role := "assistant", content := "m6" },
   { role := "user", content := "m7" }]

/-- A sample stored task row (used only to instantiate theorems on
concrete inputs). -/
def demoRow : TaskRow :=
  { id := "t-1", project_id := "p-1", milestone_id := some "m-1",
    parent_task_id := none, title := "old title", description := some "d",
    status := "todo", priority := "high", due_date := some "2026-03-01",
    start_date := some "2026-01-05", estimated_hours := some 3,
    actual_hours := some 1, dependencies := "[]", blocked_by := "[]",
    tags := "[]", is_today := false, created_at := "2026-01-01T00:00:00",
    updated_at := "2026-01-02T00:00:00", completed_at := none }

/-- The all-`None` update request. -/
def noneUpdate : TaskUpdate :=
  { title := none, description := none, status := none, priority := none,
    dueDate := none, estimatedHours := none, dependencies := none,
    tags := none, isToday := none }

/-- An update request that only sets the status to `done`. -/
def doneUpdate : TaskUpdate :=
  { title := none, description := none, status := some "done",
    priority := none, dueDate := none, estimatedHours := none,
    dependencies := none, tags := none, isToday := none }

/-- A sample task value (used only to instantiate theorems on concrete
inputs). -/
def demoTask (id title status : String) : Task :=
  { projectId := "p1", milestoneId := none, parentTaskId := none,
    title := title, description := none, status := status,
    priority := "medium", dueDate := none, startDate := none,
    estimatedHours := none, actualHours := none, dependencies := [],
    blockedBy := [], tags := [], isToday := false, id := id,
    createdAt := "2026-01-01T00:00:00", updatedAt := "2026-01-01T00:00:00",
    completedAt := none }

/-- Twelve todo tasks followed by two done tasks. -/
def c4DemoTasks : List Task :=
  (List.range 12).map
    (fun i => demoTask (toString i) ("task" ++ toString i) "todo")
    ++ [demoTask "d1" "done1" "done", demoTask "d2" "done2" "done"]

lemma runCalls_nil (p : TaskManagementPlugin) : runCalls p [] = p := rfl

lemma runCalls_cons (p : TaskManagementPlugin) (c : ToolCall) (cs : List ToolCall) :
    runCalls p (c :: cs) = runCalls (applyCall p c) cs := rfl

lemma runCalls_tasks_to_create (p : TaskManagementPlugin) (cs : List ToolCall) :
    (runCalls p cs).tasks_to_create =
      p.tasks_to_create ++ cs.filterMap ToolCall.createArg := by
  induction cs generalizing p with
  | nil => simp [runCalls]
  | cons c cs ih =>
    cases c <;>
      simp [runCalls_cons, applyCall, ToolCall.createArg,
        TaskManagementPlugin.create_task, TaskManagementPlugin.delete_task,
        TaskManagementPlugin.complete_task,
        TaskManagementPlugin.uncomplete_task, ih]

lemma runCalls_tasks_to_delete (p : TaskManagementPlugin) (cs : List ToolCall) :
    (runCalls p cs).tasks_to_delete =
      p.tasks_to_delete ++ cs.filterMap ToolCall.deleteArg := by
  induction cs generalizing p with
  | nil => simp [runCalls]
  | cons c cs ih =>
    cases c <;>
      simp [runCalls_cons, applyCall, ToolCall.deleteArg,
        TaskManagementPlugin.create_task, TaskManagementPlugin.delete_task,
        TaskManagementPlugin.complete_task,
        TaskManagementPlugin.uncomplete_task, ih]

lemma runCalls_tasks_to_complete (p : TaskManagementPlugin) (cs : List ToolCall) :
    (runCalls p cs).tasks_to_complete =
      p.tasks_to_complete ++ cs.filterMap ToolCall.completeArg := by
  induction cs generalizing p with
  | nil => simp [runCalls]
  | cons c cs ih =>
    cases c <;>
      simp [runCalls_cons, applyCall, ToolCall.completeArg,
        TaskManagementPlugin.create_task, TaskManagementPlugin.delete_task,
        TaskManagementPlugin.complete_task,
        TaskManagementPlugin.uncomplete_task, ih]

lemma runCalls_tasks_to_uncomplete (p : TaskManagementPlugin) (cs : List ToolCall) :
    (runCalls p cs).tasks_to_uncomplete =
      p.tasks_to_uncomplete ++ cs.filterMap ToolCall.uncompleteArg := by
  induction cs generalizing p with
  | nil => simp [runCalls]
  | cons c cs ih =>
    cases c <;>
      simp [runCalls_cons, applyCall, ToolCall.uncompleteArg,
        TaskManagementPlugin.create_task, TaskManagementPlugin.delete_task,
        TaskManagementPlugin.complete_task,
        TaskManagementPlugin.uncomplete_task, ih]

lemma length_filterMap_args (cs : List ToolCall) :
    (cs.filterMap ToolCall.createArg).length
      + (cs.filterMap ToolCall.deleteArg).length
      + (cs.filterMap ToolCall.completeArg).length
      + (cs.filterMap ToolCall.uncompleteArg).length = cs.length := by
  induction cs with
  | nil => simp
  | cons c cs ih =>
    cases c <;>
      simp [ToolCall.createArg, ToolCall.deleteArg, ToolCall.completeArg,
        ToolCall.uncompleteArg, List.filterMap_cons] <;> omega

lemma get_actions_runCalls (cs : List ToolCall) :
    (runCalls newPlugin cs).get_actions =
      { create := cs.filterMap ToolCall.createArg
        delete := cs.filterMap ToolCall.deleteArg
        complete := cs.filterMap ToolCall.completeArg
        uncomplete := cs.filterMap ToolCall.uncompleteArg } := by
  simp [TaskManagementPlugin.get_actions, runCalls_tasks_to_create,
    runCalls_tasks_to_delete, runCalls_tasks_to_complete,
    runCalls_tasks_to_uncomplete, newPlugin]

/-- C2: for every sequence of `k` tool calls (`k ≥ 0`) made on a fresh or
reset accumulator during one turn, a subsequent drain (`get_actions`)
returns exactly `k` entries distributed across the four lists, each entry
matching the kind and arguments of the corresponding call, in call order
within each kind; no deduplication occurs — calling `complete_task` twice
with the same id yields two identical entries in the complete list. -/
theorem c2_drain_returns_all_recorded_calls (cs : List ToolCall) :
    ((runCalls newPlugin cs).get_actions.create = cs.filterMap ToolCall.createArg
      ∧ (runCalls newPlugin cs).get_actions.delete = cs.filterMap ToolCall.deleteArg
      ∧ (runCalls newPlugin cs).get_actions.complete = cs.filterMap ToolCall.completeArg
      ∧ (runCalls newPlugin cs).get_actions.uncomplete = cs.filterMap ToolCall.uncompleteArg)
    ∧ (runCalls newPlugin cs).get_actions.create.length
        + (runCalls newPlugin cs).get_actions.delete.length
        + (runCalls newPlugin cs).get_actions.complete.length
        + (runCalls newPlugin cs).get_actions.uncomplete.length = cs.length
    ∧ (∀ p : TaskManagementPlugin, runCalls p.clear_actions cs = runCalls newPlugin cs)
    ∧ (runCalls newPlugin
        [ToolCall.completeTask "abc", ToolCall.completeTask "abc"]).get_actions.complete
        = ["abc", "abc"] := by
  refine ⟨⟨?_, ?_, ?_, ?_⟩, ?_, fun p => rfl, rfl⟩ <;>
    simp [get_actions_runCalls, length_filterMap_args]

/-- C5 counterexample: the claim says an action with an empty title is
never appended to the create list, but `create_task` performs no
validation — invoking it with the empty string as title appends an action
whose title is empty. -/
theorem c5_counterexample :
    ¬ (∀ e ∈ (runCalls newPlugin
          [ToolCall.createTask "" "medium"]).get_actions.create,
        e.title ≠ "") := by
  intro h
  exact h { title := "", priority := "medium" } (by decide) rfl

/-- C5 (amended): `create_task` performs no validation of its arguments: it
always succeeds, appending an action carrying exactly the given title and
priority (even an empty title) to the create list, leaving the other three
lists unchanged, and returns the confirmation string. -/
theorem c5_amended_create_task_records_verbatim (p : TaskManagementPlugin)
    (title priority : String) :
    (p.create_task title priority).2.tasks_to_create
        = p.tasks_to_create ++ [{ title := title, priority := priority }]
    ∧ (p.create_task title priority).2.tasks_to_delete = p.tasks_to_delete
    ∧ (p.create_task title priority).2.tasks_to_complete = p.tasks_to_complete
    ∧ (p.create_task title priority).2.tasks_to_uncomplete = p.tasks_to_uncomplete
    ∧ (p.create_task title priority).1
        = "タスク「" ++ title ++ "」(優先度: " ++ priority ++ ")を作成しました。" :=
  ⟨rfl, rfl, rfl, rfl, rfl⟩

/-- C1 counterexample: the claim says the accumulator reset runs before
control returns even on failure paths, but `clear_actions` (chat.py
line 146) sits inside the `try` body: when the model invocation raises
after a tool call was dispatched, the handler re-raises without clearing,
and the recorded action is still in the plugin state when control
returns. -/
theorem c1_counterexample :
    (chatTurn (ModelOutcome.failure
        [ToolCall.createTask "牛乳を買う" "medium"] "boom")).2
      ≠ newPlugin := by
  decide

/-- C1 (amended): the accumulator reset (`clear_actions`) is invoked before
returning on every successful turn — the returned plugin state has all four
action lists empty — but on failure paths the exception propagates without
invoking it, leaving the recorded actions in place; no stale action can
still leak into a later turn only because each turn constructs a fresh
accumulator instance (chat.py line 51). -/
theorem c1_amended_reset_only_on_success :
    (∀ calls text,
      (chatTurn (ModelOutcome.success calls text)).2 = newPlugin)
    ∧ (∀ calls errMsg,
      (chatTurn (ModelOutcome.failure calls errMsg)).2 = runCalls newPlugin calls) :=
  ⟨fun _ _ => rfl, fun _ _ => rfl⟩

/-- C4: for every list of caller-supplied tasks, the task-summary context
built by the chat endpoint lists at most 10 todo tasks — exactly
`min 10 (number of todo tasks)` lines, each line showing the id, title and
priority of a todo task from the supplied list — while the reported todo
and done counts are the true totals over the full supplied list. -/
theorem c4_task_summary_caps_listing_but_counts_all (tasks : List Task) :
    (((todo_tasks tasks).take 10).map task_list_line).length ≤ 10
    ∧ (((todo_tasks tasks).take 10).map task_list_line).length
        = min 10 (todo_count tasks)
    ∧ task_list tasks
        = String.intercalate "\n" (((todo_tasks tasks).take 10).map task_list_line)
    ∧ (∀ t ∈ (todo_tasks tasks).take 10, t ∈ tasks ∧ t.status = "todo")
    ∧ todo_count tasks = tasks.countP (fun t => t.status == "todo")
    ∧ done_count tasks = tasks.countP (fun t => t.status == "done") := by
  refine ⟨?_, ?_, rfl, ?_, ?_, ?_⟩
  · simp [todo_count]
  · simp [todo_count, todo_tasks]
  · intro t ht
    have ht' := List.mem_of_mem_take ht
    simp only [todo_tasks, List.mem_filter] at ht'
    exact ⟨ht'.1, by simpa using ht'.2⟩
  · simp [todo_count, todo_tasks, ← List.countP_eq_length_filter]
  · simp [done_count, done_tasks, ← List.countP_eq_length_filter]

/-- C4 witness: the theorem instantiated on a concrete list of twelve todo
tasks and two done tasks: twelve todo tasks are supplied but only ten lines
are listed, while the counts report the full totals. -/
theorem c4_witness :
    (((todo_tasks c4DemoTasks).take 10).map task_list_line).length = 10
    ∧ todo_count c4DemoTasks = 12 ∧ done_count c4DemoTasks = 2 := by
  have h := c4_task_summary_caps_listing_but_counts_all c4DemoTasks
  refine ⟨h.2.1.trans (by decide), ?_, ?_⟩
  · exact h.2.2.2.2.1.trans (by decide)
  · exact h.2.2.2.2.2.trans (by decide)

lemma fromHexDig_hexDig : ∀ k : Nat, k < 16 → fromHexDig (hexDig k) = some k := by
  decide

lemma hexVal4_hexDig (n : Nat) (h : n < 0x10000) :
    hexVal4 (hexDig (n / 4096 % 16)) (hexDig (n / 256 % 16))
      (hexDig (n / 16 % 16)) (hexDig (n % 16)) = some n := by
  unfold hexVal4
  rw [fromHexDig_hexDig _ (Nat.mod_lt _ (by norm_num)),
    fromHexDig_hexDig _ (Nat.mod_lt _ (by norm_num)),
    fromHexDig_hexDig _ (Nat.mod_lt _ (by norm_num)),
    fromHexDig_hexDig _ (Nat.mod_lt _ (by norm_num))]
  simp only [Option.some.injEq]
  omega

lemma scanTok_u4 (a b c1 d : Char) (n : Nat) (t : List Char)
    (hh : hexVal4 a b c1 d = some n) (hcond : n < 0xd800 ∨ 0xe000 ≤ n) :
    scanTok ('\\' :: 'u' :: a :: b :: c1 :: d :: t)
      = some (some (Char.ofNat n), t) := by
  simp [scanTok, hh, hcond]

lemma scanTok_u8 (a b c1 d a2 b2 c2 d2 : Char) (n m : Nat) (t : List Char)
    (hh : hexVal4 a b c1 d = some n) (hh2 : hexVal4 a2 b2 c2 d2 = some m)
    (hn1 : ¬ (n < 0xd800 ∨ 0xe000 ≤ n)) (hn2 : n < 0xdc00)
    (hm : 0xdc00 ≤ m ∧ m < 0xe000) :
    scanTok ('\\' :: 'u' :: a :: b :: c1 :: d
        :: '\\' :: 'u' :: a2 :: b2 :: c2 :: d2 :: t)
      = some (some (Char.ofNat (0x10000 + (n - 0xd800) * 0x400 + (m - 0xdc00))), t) := by
  simp [scanTok, hh, hh2, hn1, hn2, hm]

lemma scanTok_escChar (c : Char) (t : List Char) :
    scanTok (escChar c ++ t) = some (some c, t) := by
  have hval := c.valid
  by_cases h1 : c = '\\'
  · subst h1; rfl
  by_cases h2 : c = '"'
  · subst h2; rfl
  by_cases h3 : c = '\x08'
  · subst h3; rfl
  by_cases h4 : c = '\x0c'
  · subst h4; rfl
  by_cases h5 : c = '\n'
  · subst h5; rfl
  by_cases h6 : c = '\r'
  · subst h6; rfl
  by_cases h7 : c = '\t'
  · subst h7; rfl
  by_cases h8 : 0x20 ≤ c.toNat ∧ c.toNat ≤ 0x7e
  · have hq : ¬ c.toNat < 0x20 := by omega
    simp [escChar, h1, h2, h3, h4, h5, h6, h7, h8, scanTok, hq]
  by_cases h9 : c.toNat < 0x10000
  · have hval2 : c.toNat < 0xd800 ∨ 0xe000 ≤ c.toNat := by
      rcases hval with h | ⟨ha, hb⟩
      · left; exact h
      · right; exact ha
    have hesc : escChar c = '\\' :: 'u' :: hex4 c.toNat := by
      simp [escChar, h1, h2, h3, h4, h5, h6, h7, h8, h9]
    rw [hesc]
    simp only [hex4, List.cons_append, List.nil_append]
    rw [scanTok_u4 _ _ _ _ _ _ (hexVal4_hexDig _ h9) hval2, Char.ofNat_toNat]
  · have hval2 : c.toNat < 0x110000 := by
      show c.val.toNat < 0x110000
      rcases hval with h | ⟨ha, hb⟩
      · omega
      · exact hb
    have hv : 0x10000 ≤ c.toNat := by omega
    have hm : (c.toNat - 0x10000) % 0x400 < 0x400 := Nat.mod_lt _ (by norm_num)
    have hd : (c.toNat - 0x10000) / 0x400 < 0x400 := by omega
    have hhi : 0xd800 + (c.toNat - 0x10000) / 0x400 < 0x10000 := by omega
    have hlo : 0xdc00 + (c.toNat - 0x10000) % 0x400 < 0x10000 := by omega
    have hesc : escChar c
        = '\\' :: 'u' :: hex4 (0xd800 + (c.toNat - 0x10000) / 0x400)
          ++ ('\\' :: 'u' :: hex4 (0xdc00 + (c.toNat - 0x10000) % 0x400)) := by
      simp [escChar, h1, h2, h3, h4, h5, h6, h7, h8, h9]
    rw [hesc]
    simp only [hex4, List.cons_append, List.nil_append, List.append_assoc]
    rw [scanTok_u8 _ _ _ _ _ _ _ _ _ _ t (hexVal4_hexDig _ hhi)
      (hexVal4_hexDig _ hlo) (by omega) (by omega) (by constructor <;> omega)]
    have harg : 0x10000
        + (0xd800 + (c.toNat - 0x10000) / 0x400 - 0xd800) * 0x400
        + (0xdc00 + (c.toNat - 0x10000) % 0x400 - 0xdc00) = c.toNat := by
      have := Nat.div_add_mod (c.toNat - 0x10000) 0x400
      omega
    rw [harg, Char.ofNat_toNat]

lemma scanStrF_step (f : Nat) (c : Char) (t : List Char) :
    scanStrF (f + 1) (escChar c ++ t)
      = (scanStrF f t).map (fun p => (c :: p.1, p.2)) := by
  simp [scanStrF, scanTok_escChar]

lemma scanStrF_quote (f : Nat) (t : List Char) :
    scanStrF (f + 1) ('"' :: t) = some ([], t) := by
  simp [scanStrF, scanTok]

lemma one_le_length_escChar (c : Char) : 1 ≤ (escChar c).length := by
  unfold escChar
  split_ifs <;> simp [hex4]

lemma le_length_flatten_escChar (l : List Char) :
    l.length ≤ ((l.map escChar).flatten).length := by
  induction l with
  | nil => simp
  | cons c l ih =>
    simp only [List.map_cons, List.flatten_cons, List.length_append,
      List.length_cons]
    have := one_le_length_escChar c
    omega

lemma scanStrF_render (l : List Char) (t : List Char) (fuel : Nat)
    (hf : l.length < fuel) :
    scanStrF fuel ((l.map escChar).flatten ++ '"' :: t) = some (l, t) := by
  induction l generalizing fuel t with
  | nil =>
    cases fuel with
    | zero => omega
    | succ f => simpa using scanStrF_quote f t
  | cons c l ih =>
    cases fuel with
    | zero => omega
    | succ f =>
      simp only [List.map_cons, List.flatten_cons, List.append_assoc]
      rw [scanStrF_step]
      rw [ih _ f (by simp at hf ⊢; omega)]
      rfl

lemma parseStr_renderStr (s : String) (t : List Char) :
    parseStr (renderStr s ++ t) = some (s, t) := by
  have hshape : renderStr s ++ t
      = '"' :: ((s.data.map escChar).flatten ++ '"' :: t) := by
    simp [renderStr]
  rw [hshape]
  show (scanStrF ((s.data.map escChar).flatten ++ '"' :: t).length
      ((s.data.map escChar).flatten ++ '"' :: t)).map
      (fun p => (String.mk p.1, p.2)) = some (s, t)
  rw [scanStrF_render s.data t _ (by
    simp only [List.length_append, List.length_cons]
    have := le_length_flatten_escChar s.data
    omega)]
  rfl

lemma one_le_length_renderStr (s : String) : 1 ≤ (renderStr s).length := by
  simp [renderStr]

lemma le_length_sepRender_renderStr (l : List String) :
    l.length ≤ (sepRender (l.map renderStr)).length := by
  induction l with
  | nil => simp
  | cons s l ih =>
    cases l with
    | nil => simpa using one_le_length_renderStr s
    | cons s2 l2 =>
      simp only [List.map_cons, sepRender, List.length_append,
        List.length_cons] at ih ⊢
      have := one_le_length_renderStr s
      omega

lemma parseStrItems_render (l : List String) (t : List Char) :
    ∀ fuel, l.length ≤ fuel → l ≠ [] →
    parseStrItems fuel (sepRender (l.map renderStr) ++ ']' :: t)
      = some (l, t) := by
  induction l generalizing t with
  | nil => intro fuel hf hne; contradiction
  | cons s l ih =>
    intro fuel hf hne
    cases fuel with
    | zero => simp at hf
    | succ f =>
      cases l with
      | nil =>
        simp only [List.map_cons, List.map_nil, sepRender]
        simp only [parseStrItems, parseStr_renderStr]
      | cons s2 l2 =>
        simp only [List.map_cons, sepRender]
        have hshape : (renderStr s
              ++ ',' :: ' ' :: sepRender (renderStr s2 :: l2.map renderStr))
              ++ ']' :: t
            = renderStr s
              ++ (',' :: ' '
                :: (sepRender (renderStr s2 :: l2.map renderStr) ++ ']' :: t)) := by
          simp
        rw [hshape]
        simp only [parseStrItems, parseStr_renderStr]
        rw [show (renderStr s2 :: l2.map renderStr)
            = ((s2 :: l2).map renderStr) from rfl]
        rw [ih t f (by simp at hf ⊢; omega) (by simp)]
        rfl

lemma parseStrList_render (l : List String) (t : List Char) :
    parseStrList (renderStrList l ++ t) = some (l, t) := by
  cases l with
  | nil => simp [renderStrList, sepRender, parseStrList]
  | cons s l2 =>
    obtain ⟨X, hX⟩ : ∃ X, sepRender ((s :: l2).map renderStr) = '"' :: X := by
      cases l2 with
      | nil => exact ⟨(s.data.map escChar).flatten ++ ['"'],
          by simp [sepRender, renderStr]⟩
      | cons s2 l3 => exact ⟨((s.data.map escChar).flatten ++ ['"'])
            ++ ',' :: ' ' :: sepRender ((s2 :: l3).map renderStr),
          by simp [sepRender, renderStr]⟩
    have hlen := le_length_sepRender_renderStr (s :: l2)
    simp only [List.map_cons, List.length_cons] at hX hlen
    have hshape : renderStrList (s :: l2) ++ t
        = '[' :: '"' :: (X ++ ']' :: t) := by
      simp [renderStrList, hX]
    rw [hshape]
    rw [show parseStrList ('[' :: '"' :: (X ++ ']' :: t))
        = parseStrItems ('"' :: (X ++ ']' :: t)).length
            ('"' :: (X ++ ']' :: t)) from rfl]
    have hback : '"' :: (X ++ ']' :: t)
        = sepRender ((s :: l2).map renderStr) ++ ']' :: t := by
      simp [hX]
    rw [hback]
    refine parseStrItems_render (s :: l2) t _ ?_ (by simp)
    simp only [List.map_cons, List.length_append, List.length_cons]
    omega

lemma expectL_append (lit r : List Char) : expectL lit (lit ++ r) = some r := by
  induction lit with
  | nil => rfl
  | cons c cs ih => simp [expectL, ih]

lemma parseEntry_renderEntry (e : CreateEntry) (t : List Char) :
    parseEntry (renderEntry e ++ t) = some (e, t) := by
  have h1 : renderEntry e ++ t
      = "\x7b\"title\": ".data ++ (renderStr e.title
        ++ (", \"priority\": ".data ++ (renderStr e.priority ++ '\x7d' :: t))) := by
    simp [renderEntry]
  rw [h1]
  simp only [parseEntry, expectL_append, parseStr_renderStr]

lemma one_le_length_renderEntry (e : CreateEntry) :
    1 ≤ (renderEntry e).length := by
  simp [renderEntry]

lemma le_length_sepRender_renderEntry (l : List CreateEntry) :
    l.length ≤ (sepRender (l.map renderEntry)).length := by
  induction l with
  | nil => simp
  | cons e l ih =>
    cases l with
    | nil => simpa using one_le_length_renderEntry e
    | cons e2 l2 =>
      simp only [List.map_cons, sepRender, List.length_append,
        List.length_cons] at ih ⊢
      have := one_le_length_renderEntry e
      omega

lemma parseEntryItems_render (l : List CreateEntry) (t : List Char) :
    ∀ fuel, l.length ≤ fuel → l ≠ [] →
    parseEntryItems fuel (sepRender (l.map renderEntry) ++ ']' :: t)
      = some (l, t) := by
  induction l generalizing t with
  | nil => intro fuel hf hne; contradiction
  | cons e l ih =>
    intro fuel hf hne
    cases fuel with
    | zero => simp at hf
    | succ f =>
      cases l with
      | nil =>
        simp only [List.map_cons, List.map_nil, sepRender]
        simp only [parseEntryItems, parseEntry_renderEntry]
      | cons e2 l2 =>
        simp only [List.map_cons, sepRender]
        have hshape : (renderEntry e
              ++ ',' :: ' ' :: sepRender (renderEntry e2 :: l2.map renderEntry))
              ++ ']' :: t
            = renderEntry e
              ++ (',' :: ' '
                :: (sepRender (renderEntry e2 :: l2.map renderEntry) ++ ']' :: t)) := by
          simp
        rw [hshape]
        simp only [parseEntryItems, parseEntry_renderEntry]
        rw [show (renderEntry e2 :: l2.map renderEntry)
            = ((e2 :: l2).map renderEntry) from rfl]
        rw [ih t f (by simp at hf ⊢; omega) (by simp)]
        rfl

lemma parseEntryList_render (l : List CreateEntry) (t : List Char) :
    parseEntryList (renderEntryList l ++ t) = some (l, t) := by
  cases l with
  | nil => simp [renderEntryList, sepRender, parseEntryList]
  | cons e l2 =>
    obtain ⟨X, hX⟩ : ∃ X, sepRender ((e :: l2).map renderEntry)
        = '\x7b' :: X := by
      cases l2 with
      | nil => exact ⟨("\"title\": ".data ++ renderStr e.title
            ++ ", \"priority\": ".data ++ renderStr e.priority ++ ['\x7d']),
          by simp [sepRender, renderEntry]⟩
      | cons e2 l3 => exact ⟨("\"title\": ".data ++ renderStr e.title
            ++ ", \"priority\": ".data ++ renderStr e.priority ++ ['\x7d'])
            ++ ',' :: ' ' :: sepRender ((e2 :: l3).map renderEntry),
          by simp [sepRender, renderEntry]⟩
    have hlen := le_length_sepRender_renderEntry (e :: l2)
    simp only [List.map_cons, List.length_cons] at hX hlen
    have hshape : renderEntryList (e :: l2) ++ t
        = '[' :: '\x7b' :: (X ++ ']' :: t) := by
      simp [renderEntryList, hX]
    rw [hshape]
    rw [show parseEntryList ('[' :: '\x7b' :: (X ++ ']' :: t))
        = parseEntryItems ('\x7b' :: (X ++ ']' :: t)).length
            ('\x7b' :: (X ++ ']' :: t)) from rfl]
    have hback : '\x7b' :: (X ++ ']' :: t)
        = sepRender ((e :: l2).map renderEntry) ++ ']' :: t := by
      simp [hX]
    rw [hback]
    refine parseEntryItems_render (e :: l2) t _ ?_ (by simp)
    simp only [List.map_cons, List.length_append, List.length_cons]
    omega

lemma parseTaskActions_dumps (a : Actions) :
    parseTaskActions (dumpsTaskActions a) = some a := by
  have h1 : dumpsTaskActions a
      = "\x7b\"__task_actions__\": \x7b\"create\": ".data
        ++ (renderEntryList a.create
          ++ (", \"delete\": ".data
            ++ (renderStrList a.delete
              ++ (", \"complete\": ".data
                ++ (renderStrList a.complete
                  ++ (", \"uncomplete\": ".data
                    ++ (renderStrList a.uncomplete
                      ++ ['\x7d', '\x7d']))))))) := by
    simp [dumpsTaskActions]
  rw [h1]
  simp only [parseTaskActions, expectL_append, parseEntryList_render,
    parseStrList_render]

lemma foldl_history (msgs : List ChatMessage) (acc : List HistEntry) :
    msgs.foldl
      (fun acc msg =>
        if msg.role == "user" then acc ++ [HistEntry.user msg.content]
        else if msg.role == "assistant" then acc ++ [HistEntry.assistant msg.content]
        else acc)
      acc
    = acc ++ (msgs.filter
        (fun m => m.role == "user" || m.role == "assistant")).map msgEntry := by
  induction msgs generalizing acc with
  | nil => simp
  | cons m ms ih =>
    rw [List.foldl_cons, ih]
    by_cases hu : m.role = "user"
    · simp [hu, msgEntry]
    · by_cases ha : m.role = "assistant"
      · simp [hu, ha, msgEntry]
      · simp [hu, ha, msgEntry]

/-- C9: for every chat request, any history entry within the windowed
history whose role is neither `"user"` nor `"assistant"` is silently
omitted from the conversation context sent to the model — the construction
always succeeds, and the remaining user/assistant entries are included in
their original relative order, followed by the new user message. -/
theorem c9_non_user_assistant_roles_silently_skipped
    (history : List ChatMessage) (chat_history_limit : Nat) (message : String) :
    appendHistoryAndMessage history chat_history_limit message
      = ((pyLastSlice chat_history_limit history).filter
            (fun m => m.role == "user" || m.role == "assistant")).map msgEntry
        ++ [HistEntry.user message] := by
  unfold appendHistoryAndMessage
  rw [foldl_history]
  simp

/-- C6: for every chat request whose history entries all carry the
documented roles (`'user' or 'assistant'`, schemas.py line 274) and whose
history is at least as long as the configured positive limit `N`, exactly
the last `N` history entries are included in the conversation context, in
their given order, followed by the new user message; earlier entries are
dropped. -/
theorem c6_last_n_history_entries_included
    (history : List ChatMessage) (N : Nat) (message : String)
    (hN : 0 < N) (hlen : N ≤ history.length)
    (hroles : ∀ m ∈ history, m.role = "user" ∨ m.role = "assistant") :
    appendHistoryAndMessage history N message
      = (history.drop (history.length - N)).map msgEntry
        ++ [HistEntry.user message]
    ∧ ((history.drop (history.length - N)).map msgEntry).length = N := by
  have hslice : pyLastSlice N history = history.drop (history.length - N) := by
    simp [pyLastSlice, Nat.pos_iff_ne_zero.mp hN]
  have hfilter :
      (history.drop (history.length - N)).filter
          (fun m => m.role == "user" || m.role == "assistant")
        = history.drop (history.length - N) := by
    apply List.filter_eq_self.mpr
    intro m hm
    rcases hroles m (List.mem_of_mem_drop hm) with h | h <;> simp [h]
  constructor
  · rw [c9_non_user_assistant_roles_silently_skipped, hslice, hfilter]
  · simp only [List.length_map, List.length_drop]
    omega

/-- C6 witness: on a seven-message user/assistant history with limit 5,
the context is exactly the last five entries followed by the new user
message. -/
theorem c6_witness :
    appendHistoryAndMessage c6DemoHistory 5 "new"
        = (c6DemoHistory.drop (c6DemoHistory.length - 5)).map msgEntry
          ++ [HistEntry.user "new"]
    ∧ ((c6DemoHistory.drop (c6DemoHistory.length - 5)).map msgEntry).length = 5 :=
  c6_last_n_history_entries_included c6DemoHistory 5 "new" (by decide)
    (by decide) (by decide)

lemma applyTaskUpdate_eq (task : TaskRow) (updates : TaskUpdate) (now : String) :
    applyTaskUpdate task updates now =
      { task with
        title := updates.title.getD task.title
        description := match updates.description with
          | some v => some v
          | none => task.description
        status := updates.status.getD task.status
        completed_at := match updates.status with
          | some s => newCompletedAt s task.completed_at now
          | none => task.completed_at
        priority := updates.priority.getD task.priority
        due_date := match updates.dueDate with
          | some v => some v
          | none => task.due_date
        estimated_hours := match updates.estimatedHours with
          | some v => some v
          | none => task.estimated_hours
        dependencies := match updates.dependencies with
          | some v => String.mk (renderStrList v)
          | none => task.dependencies
        tags := match updates.tags with
          | some v => String.mk (renderStrList v)
          | none => task.tags
        is_today := updates.isToday.getD task.is_today
        updated_at := now } := by
  rcases updates with ⟨t, d, s, p, dd, eh, dep, tg, it⟩
  cases t <;> cases d <;> cases s <;> cases p <;> cases dd <;> cases eh <;>
    cases dep <;> cases tg <;> cases it <;> rfl

/-- C7: for every `update_task` call that sets the status on a stored row
whose `completed_at` is not the (unreachable-by-this-API) empty string: if
the new status is `"done"` the stored completion timestamp is non-null
afterwards, and if the new status is not `"done"` it is null afterwards —
set on transition to done, cleared on transition away, enforced at write
time. -/
theorem c7_completed_at_tracks_done_status
    (task : TaskRow) (updates : TaskUpdate) (now s : String)
    (hs : updates.status = some s) (hwf : task.completed_at ≠ some "") :
    (s = "done" →
      ((applyTaskUpdate task updates now).completed_at).isSome = true)
    ∧ (s ≠ "done" →
      (applyTaskUpdate task updates now).completed_at = none) := by
  have he := applyTaskUpdate_eq task updates now
  constructor
  · intro hd
    subst hd
    rw [he]
    simp only [hs]
    show (newCompletedAt "done" task.completed_at now).isSome = true
    cases h : task.completed_at with
    | none => simp [newCompletedAt, pyTruthyOptStr]
    | some str => by_cases hstr : str = "" <;>
        simp [newCompletedAt, pyTruthyOptStr, hstr]
  · intro hnd
    rw [he]
    simp only [hs]
    show newCompletedAt s task.completed_at now = none
    cases h : task.completed_at with
    | none => simp [newCompletedAt, pyTruthyOptStr, hnd]
    | some str =>
      rcases eq_or_ne str "" with rfl | hstr
      · exact absurd h hwf
      · simp [newCompletedAt, pyTruthyOptStr, hnd, hstr]

/-- C7 witness: updating a row with no completion timestamp to status
`done` leaves a non-null `completed_at`. -/
theorem c7_witness :
    ((applyTaskUpdate demoRow doneUpdate
        "2026-02-02T00:00:00").completed_at).isSome = true := by
  have h := c7_completed_at_tracks_done_status demoRow doneUpdate
    "2026-02-02T00:00:00" "done" rfl (by simp [demoRow])
  exact h.1 rfl

/-- C10: for every `update_task` call on a found row, only the fields
supplied as non-`None` change, plus `updated_at` (always stamped with the
current time) and possibly `completed_at` (only as a consequence of a
supplied status); every field the update schema does not carry —
`project_id`, `milestone_id`, `parent_task_id`, `start_date`,
`actual_hours`, `blocked_by`, `created_at`, `id` — keeps its prior stored
value. -/
theorem c10_update_task_touches_only_supplied_fields
    (task : TaskRow) (updates : TaskUpdate) (now : String) :
    ((applyTaskUpdate task updates now).id = task.id
      ∧ (applyTaskUpdate task updates now).project_id = task.project_id
      ∧ (applyTaskUpdate task updates now).milestone_id = task.milestone_id
      ∧ (applyTaskUpdate task updates now).parent_task_id = task.parent_task_id
      ∧ (applyTaskUpdate task updates now).start_date = task.start_date
      ∧ (applyTaskUpdate task updates now).actual_hours = task.actual_hours
      ∧ (applyTaskUpdate task updates now).blocked_by = task.blocked_by
      ∧ (applyTaskUpdate task updates now).created_at = task.created_at)
    ∧ (updates.title = none → (applyTaskUpdate task updates now).title = task.title)
    ∧ (updates.description = none →
        (applyTaskUpdate task updates now).description = task.description)
    ∧ (updates.status = none →
        (applyTaskUpdate task updates now).status = task.status
        ∧ (applyTaskUpdate task updates now).completed_at = task.completed_at)
    ∧ (updates.priority = none →
        (applyTaskUpdate task updates now).priority = task.priority)
    ∧ (updates.dueDate = none →
        (applyTaskUpdate task updates now).due_date = task.due_date)
    ∧ (updates.estimatedHours = none →
        (applyTaskUpdate task updates now).estimated_hours = task.estimated_hours)
    ∧ (updates.dependencies = none →
        (applyTaskUpdate task updates now).dependencies = task.dependencies)
    ∧ (updates.tags = none → (applyTaskUpdate task updates now).tags = task.tags)
    ∧ (updates.isToday = none →
        (applyTaskUpdate task updates now).is_today = task.is_today)
    ∧ (applyTaskUpdate task updates now).updated_at = now := by
  have he := applyTaskUpdate_eq task updates now
  refine ⟨⟨?_, ?_, ?_, ?_, ?_, ?_, ?_, ?_⟩, ?_, ?_, ?_, ?_, ?_, ?_, ?_, ?_, ?_, ?_⟩ <;>
    first
      | (intro h; simp [he, h])
      | simp [he]

/-- C10 witness: the all-`None` update on a sample row changes nothing but
`updated_at`. -/
theorem c10_witness :
    (applyTaskUpdate demoRow noneUpdate "2026-02-02T00:00:00").title = demoRow.title
    ∧ (applyTaskUpdate demoRow noneUpdate "2026-02-02T00:00:00").completed_at
        = demoRow.completed_at
    ∧ (applyTaskUpdate demoRow noneUpdate "2026-02-02T00:00:00").created_at
        = demoRow.created_at
    ∧ (applyTaskUpdate demoRow noneUpdate "2026-02-02T00:00:00").updated_at
        = "2026-02-02T00:00:00" := by
  have h := c10_update_task_touches_only_supplied_fields demoRow noneUpdate
    "2026-02-02T00:00:00"
  exact ⟨h.2.1 rfl, (h.2.2.2.1 rfl).2, h.1.2.2.2.2.2.2.2, h.2.2.2.2.2.2.2.2.2.2⟩

lemma ListHeap.read_alloc_of_lt (h : ListHeap) (v : List ActionItem) (r : Nat)
    (hr : r < h.cells.length) : (h.alloc v).1.read r = h.read r := by
  simp [ListHeap.alloc, ListHeap.read, List.getD,
    List.getElem?_append_left hr]

lemma ListHeap.read_mk_append_left (cells L : List (List ActionItem)) (r : Nat)
    (hr : r < cells.length) :
    (ListHeap.mk (cells ++ L)).read r = (ListHeap.mk cells).read r := by
  simp [ListHeap.read, List.getD, List.getElem?_append_left hr]

lemma ListHeap.read_mk_append_right (cells L : List (List ActionItem)) (i : Nat) :
    (ListHeap.mk (cells ++ L)).read (cells.length + i)
      = (ListHeap.mk L).read i := by
  simp [ListHeap.read, List.getD, List.getElem?_append_right]

lemma ListHeap.read_write_ne (h : ListHeap) (r r' : Nat) (v : List ActionItem)
    (hne : r ≠ r') : (h.write r' v).read r = h.read r := by
  simp [ListHeap.write, ListHeap.read, List.getD,
    List.getElem?_set_ne (Ne.symm hne)]

lemma getActionsRefs_eq (h : ListHeap) (p : PluginRefs) (hv : p.validOn h) :
    getActionsRefs h p =
      ({ cells := h.cells ++ [h.read p.create_ref, h.read p.delete_ref,
           h.read p.complete_ref, h.read p.uncomplete_ref] },
       { create_ref := h.cells.length, delete_ref := h.cells.length + 1,
         complete_ref := h.cells.length + 2,
         uncomplete_ref := h.cells.length + 3 }) := by
  have hd : p.delete_ref < h.cells.length := hv _ (by simp [PluginRefs.refs])
  have hc : p.complete_ref < h.cells.length := hv _ (by simp [PluginRefs.refs])
  have hu : p.uncomplete_ref < h.cells.length := hv _ (by simp [PluginRefs.refs])
  have e2 : (h.alloc (h.read p.create_ref)).1.read p.delete_ref
      = h.read p.delete_ref := ListHeap.read_alloc_of_lt _ _ _ hd
  have e3 : ((h.alloc (h.read p.create_ref)).1.alloc
        ((h.alloc (h.read p.create_ref)).1.read p.delete_ref)).1.read
        p.complete_ref = h.read p.complete_ref := by
    rw [ListHeap.read_alloc_of_lt, ListHeap.read_alloc_of_lt _ _ _ hc]
    simp [ListHeap.alloc]
    omega
  have e4 : (((h.alloc (h.read p.create_ref)).1.alloc
        ((h.alloc (h.read p.create_ref)).1.read p.delete_ref)).1.alloc
        (((h.alloc (h.read p.create_ref)).1.alloc
          ((h.alloc (h.read p.create_ref)).1.read p.delete_ref)).1.read
          p.complete_ref)).1.read p.uncomplete_ref
      = h.read p.uncomplete_ref := by
    rw [ListHeap.read_alloc_of_lt, ListHeap.read_alloc_of_lt,
      ListHeap.read_alloc_of_lt _ _ _ hu]
    · simp [ListHeap.alloc]; omega
    · simp [ListHeap.alloc]; omega
  simp only [getActionsRefs, e2, e3, e4]
  simp [ListHeap.alloc, List.append_assoc]
  have g3 : (ListHeap.mk (h.cells
      ++ [h.read p.create_ref, h.read p.delete_ref])).read p.complete_ref
      = h.read p.complete_ref :=
    ListHeap.read_mk_append_left _ _ _ hc
  rw [g3]
  exact ⟨rfl, ListHeap.read_mk_append_left _ _ _ hu⟩

/-- C8: for every heap and every valid plugin instance, drain
(`get_actions`) returns a snapshot backed by freshly allocated copies of
the four action lists: the snapshot's cells hold exactly the contents of
the plugin's four lists, the plugin's own cells are left unchanged, and
mutating any snapshot cell afterwards leaves every one of the plugin's
cells with its original contents. -/
theorem c8_drain_returns_independent_copy (h : ListHeap) (p : PluginRefs)
    (hv : p.validOn h) :
    ((getActionsRefs h p).1.read (getActionsRefs h p).2.create_ref
        = h.read p.create_ref
      ∧ (getActionsRefs h p).1.read (getActionsRefs h p).2.delete_ref
        = h.read p.delete_ref
      ∧ (getActionsRefs h p).1.read (getActionsRefs h p).2.complete_ref
        = h.read p.complete_ref
      ∧ (getActionsRefs h p).1.read (getActionsRefs h p).2.uncomplete_ref
        = h.read p.uncomplete_ref)
    ∧ (∀ r ∈ p.refs, (getActionsRefs h p).1.read r = h.read r)
    ∧ (∀ v : List ActionItem, ∀ rs ∈ (getActionsRefs h p).2.refs,
        ∀ r ∈ p.refs, ((getActionsRefs h p).1.write rs v).read r = h.read r) := by
  rw [getActionsRefs_eq h p hv]
  have hread : ∀ r ∈ p.refs, r < h.cells.length := hv
  refine ⟨⟨?_, ?_, ?_, ?_⟩, ?_, ?_⟩
  · simpa using ListHeap.read_mk_append_right h.cells _ 0
  · simpa using ListHeap.read_mk_append_right h.cells _ 1
  · simpa using ListHeap.read_mk_append_right h.cells _ 2
  · simpa using ListHeap.read_mk_append_right h.cells _ 3
  · intro r hr
    have := ListHeap.read_mk_append_left h.cells
      [h.read p.create_ref, h.read p.delete_ref, h.read p.complete_ref,
       h.read p.uncomplete_ref] r (hread r hr)
    simpa using this
  · intro v rs hrs r hr
    have hlt : r < h.cells.length := hread r hr
    have hge : h.cells.length ≤ rs := by
      simp only [PluginRefs.refs, List.mem_cons, List.not_mem_nil,
        or_false] at hrs
      rcases hrs with rfl | rfl | rfl | rfl <;> omega
    rw [ListHeap.read_write_ne _ _ _ _ (by omega)]
    have := ListHeap.read_mk_append_left h.cells
      [h.read p.create_ref, h.read p.delete_ref, h.read p.complete_ref,
       h.read p.uncomplete_ref] r hlt
    simpa using this

/-- C8 witness: on the heap produced by constructing a fresh plugin and
appending one create entry, the drained snapshot equals the plugin's
lists, the plugin's cells are untouched, and clearing a snapshot cell does
not change the plugin's cell. -/
theorem c8_witness :
    ((getActionsRefs c8DemoHeap c8DemoRefs).1.read
        (getActionsRefs c8DemoHeap c8DemoRefs).2.create_ref
      = c8DemoHeap.read c8DemoRefs.create_ref)
    ∧ (getActionsRefs c8DemoHeap c8DemoRefs).1.read c8DemoRefs.create_ref
      = c8DemoHeap.read c8DemoRefs.create_ref
    ∧ ((getActionsRefs c8DemoHeap c8DemoRefs).1.write
        (getActionsRefs c8DemoHeap c8DemoRefs).2.create_ref []).read
        c8DemoRefs.create_ref
      = c8DemoHeap.read c8DemoRefs.create_ref := by
  have h := c8_drain_returns_independent_copy c8DemoHeap c8DemoRefs (by decide)
  refine ⟨h.1.1, ?_, ?_⟩
  · exact h.2.1 c8DemoRefs.create_ref (by simp [PluginRefs.refs])
  · exact h.2.2 [] (getActionsRefs c8DemoHeap c8DemoRefs).2.create_ref
      (by simp [PluginRefs.refs]) c8DemoRefs.create_ref
      (by simp [PluginRefs.refs])

/-- C3: for every turn, if all four drained action lists are empty the
returned reply is the model's reply unmodified; if at least one list is
non-empty the reply is the model's text followed by two newlines and the
JSON encoding of the four lists under the single key `__task_actions__`;
and parsing that trailing JSON block reproduces exactly the drained
snapshot (record → drain → serialize → parse round-trip). -/
theorem c3_reply_serialization_roundtrip (calls : List ToolCall)
    (response_text : String) :
    ((chatTurn (ModelOutcome.success calls response_text)).1
      = Except.ok
          (if (runCalls newPlugin calls).get_actions.create = []
              ∧ (runCalls newPlugin calls).get_actions.delete = []
              ∧ (runCalls newPlugin calls).get_actions.complete = []
              ∧ (runCalls newPlugin calls).get_actions.uncomplete = []
            then response_text
            else response_text ++ "\n\n"
              ++ String.mk (dumpsTaskActions
                  (runCalls newPlugin calls).get_actions)))
    ∧ parseTaskActions (dumpsTaskActions (runCalls newPlugin calls).get_actions)
      = some (runCalls newPlugin calls).get_actions := by
  refine ⟨?_, parseTaskActions_dumps _⟩
  by_cases hc : (runCalls newPlugin calls).get_actions.create = []
      ∧ (runCalls newPlugin calls).get_actions.delete = []
      ∧ (runCalls newPlugin calls).get_actions.complete = []
      ∧ (runCalls newPlugin calls).get_actions.uncomplete = []
  · rw [if_pos hc]
    obtain ⟨h1, h2, h3, h4⟩ := hc
    simp [chatTurn, h1, h2, h3, h4]
  · rw [if_neg hc]
    have hb : (!(runCalls newPlugin calls).get_actions.create.isEmpty
        || !(runCalls newPlugin calls).get_actions.delete.isEmpty
        || !(runCalls newPlugin calls).get_actions.complete.isEmpty
        || !(runCalls newPlugin calls).get_actions.uncomplete.isEmpty)
        = true := by
      simp only [Bool.or_eq_true, Bool.not_eq_true', List.isEmpty_eq_false,
        ne_eq]
      by_contra hall
      push_neg at hall
      exact hc (by tauto)
    simp [chatTurn, hb]

end AILifeManager
